import Mathlib

/-!
# Verification of the Archestra platform backend

A shallow embedding in Lean 4 of the parts of the Archestra repository that
the verified claims talk about:

* the secret-encryption utilities and the standalone key-rotation script
  (`rotate-secret-encryption-key.ts`);
* the database-retry layer (`retry.ts`: `isTransientDbError`, `withDbRetry`);
* the `SsoProviderModel`, `InteractionModel` and `OrganizationModel` data
  models;
* the organization routes (logo upload, organization PATCH) and the A2A
  JSON-RPC routes.

Pure functions of the source become Lean functions; database access becomes
explicit state passing over lists of rows; `throw` becomes `Except.error`;
a database transaction becomes an `Except` computation whose error outcome
writes nothing.  JavaScript strings appearing only as opaque payloads are
kept as `String`/`List Char`; byte values are `Nat` with explicit `% 256`.
-/

namespace Archestra

/-! ## Secret-encryption subsystem

Modelled from the spec: the implementation file `crypto.ts` is not part of
the source tree (only its test suite and callers are).  Per the spec,
`encryptSecretValueWithKey(plaintextObject, key)` serializes the object to
JSON, encrypts it with an authenticated symmetric cipher using a fresh
random initialization vector per call, and returns a wrapper object
`{ __encrypted: "v1:<iv>:<authTag>:<ciphertext>" }` with each component
base64url-encoded; `decryptSecretValueWithKey` splits the string into
exactly 4 colon-delimited parts, rejects any other shape or a version tag
other than `v1` with "Invalid encrypted secret format", and fails on a
tampered ciphertext or authentication tag; `isEncryptedSecret` recognizes
exactly the wrapper shape with a string field starting with `v1:`.

Modelling choices: a JSON-serializable plaintext object is represented by
the byte list (`List Nat`, each `< 256`) of its JSON serialization, which
is injective on objects, so round-tripping the bytes round-trips the
object.  The authenticated cipher is an idealized stream cipher with an
accompanying tag; the random IV is passed explicitly as a parameter (the
caller supplies a fresh one per call, mirroring the CSPRNG).  The IV field
is a fixed 16 base64url characters (96 bits, as a 12-byte GCM IV) and the
tag field a fixed 22 characters (as a 16-byte GCM tag); each ciphertext
byte is rendered as 2 base64url characters. -/

/-- The 64-character base64url alphabet (`A–Z`, `a–z`, `0–9`, `-`, `_`). -/
def b64Alphabet : List Char :=
  ['A','B','C','D','E','F','G','H','I','J','K','L','M',
   'N','O','P','Q','R','S','T','U','V','W','X','Y','Z',
   'a','b','c','d','e','f','g','h','i','j','k','l','m',
   'n','o','p','q','r','s','t','u','v','w','x','y','z',
   '0','1','2','3','4','5','6','7','8','9','-','_']

/-- The base64url character of a digit value. -/
def b64Char (d : Nat) : Char := b64Alphabet.getD (d % 64) 'A'

/-- The digit value of a base64url character. -/
def b64Val (c : Char) : Nat := b64Alphabet.indexOf c

/-- Fixed-width base64url rendering of a natural number
(`k` digits, little-endian). -/
def encNat : Nat → Nat → List Char
  | 0, _ => []
  | k + 1, n => b64Char (n % 64) :: encNat k (n / 64)

/-- Decode a base64url digit string (little-endian). -/
def decNat : List Char → Nat
  | [] => 0
  | c :: cs => b64Val c + 64 * decNat cs

theorem length_encNat (k n : Nat) : (encNat k n).length = k := by
  induction k generalizing n with
  | zero => rfl
  | succ k ih => simp [encNat, ih]

theorem b64Val_b64Char_aux : ∀ d < 64, b64Val (b64Alphabet.getD d 'A') = d := by
  decide

theorem b64Val_b64Char (d : Nat) (h : d < 64) : b64Val (b64Char d) = d := by
  have hd : d % 64 = d := Nat.mod_eq_of_lt h
  rw [b64Char, hd]
  exact b64Val_b64Char_aux d h

theorem decNat_encNat (k n : Nat) (h : n < 64 ^ k) :
    decNat (encNat k n) = n := by
  induction k generalizing n with
  | zero =>
    interval_cases n
    rfl
  | succ k ih =>
    have hdiv : n / 64 < 64 ^ k := by
      rw [Nat.div_lt_iff_lt_mul (by norm_num)]
      calc n < 64 ^ (k + 1) := h
        _ = 64 ^ k * 64 := by ring
    rw [encNat, decNat, b64Val_b64Char _ (Nat.mod_lt _ (by norm_num)),
      ih _ hdiv, Nat.mod_add_div]

/-- The per-position keystream byte of the idealized authenticated stream
cipher, determined by the key and IV (as CTR-mode encryption is). -/
def keystreamByte (key iv i : Nat) : Nat := (key + 131 * iv + 17 * i) % 256

/-- Encrypt a byte list with the keystream, starting at position `i`. -/
def encBytes (key iv : Nat) : Nat → List Nat → List Nat
  | _, [] => []
  | i, b :: bs => (b + keystreamByte key iv i) % 256 :: encBytes key iv (i + 1) bs

/-- Decrypt a byte list with the keystream, starting at position `i`. -/
def decBytes (key iv : Nat) : Nat → List Nat → List Nat
  | _, [] => []
  | i, b :: bs =>
    (b + 256 - keystreamByte key iv i) % 256 :: decBytes key iv (i + 1) bs

/-- The authentication tag of a ciphertext under a key and IV (a 22
base64url-digit value, as a GCM tag over key, IV and ciphertext). -/
def authTag (key iv : Nat) (ct : List Nat) : Nat :=
  (1 + 7919 * key + 104729 * iv
    + ct.foldl (fun a b => 257 * a + (b + 1)) 0) % 64 ^ 22

/-- Render a ciphertext byte list, 2 base64url characters per byte. -/
def renderCt (ct : List Nat) : List Char := ct.flatMap (encNat 2)

/-- Parse a ciphertext field back into bytes (2 characters per byte). -/
def parseCt : List Char → Option (List Nat)
  | [] => some []
  | c1 :: c2 :: rest => (parseCt rest).map (fun l => decNat [c1, c2] :: l)
  | _ => none

/-- The characters of the `v1:<iv>:<authTag>:<ciphertext>` envelope string:
a fixed 16-character IV field, a fixed 22-character tag field, and the
rendered ciphertext, colon-delimited after the `v1` version tag. -/
def mkEnvelopeChars (iv tag : Nat) (ct : List Nat) : List Char :=
  ['v', '1', ':'] ++ encNat 16 iv ++ [':'] ++ encNat 22 tag ++ [':']
    ++ renderCt ct

/-- The persisted encrypted wrapper object `{ __encrypted: "v1:..." }`. -/
structure EncryptedSecret where
  __encrypted : String
deriving DecidableEq, Repr

/-- Parse the ciphertext component after its leading colon delimiter. -/
def parseCtSep (ivcs tagcs : List Char) : List Char → Option (Nat × Nat × List Nat)
  | ':' :: ctcs => (parseCt ctcs).map (fun ct => (decNat ivcs, decNat tagcs, ct))
  | _ => none

/-- Parse the fixed-width tag component of an envelope. -/
def parseTagField (ivcs rest2 : List Char) : Option (Nat × Nat × List Nat) :=
  if (rest2.take 22).length = 22 then
    parseCtSep ivcs (rest2.take 22) (rest2.drop 22)
  else none

/-- Parse the colon delimiter between the IV and tag components. -/
def parseTagSep (ivcs : List Char) : List Char → Option (Nat × Nat × List Nat)
  | ':' :: rest2 => parseTagField ivcs rest2
  | _ => none

/-- Parse the fixed-width IV component of an envelope. -/
def parseIvField (rest : List Char) : Option (Nat × Nat × List Nat) :=
  if (rest.take 16).length = 16 then
    parseTagSep (rest.take 16) (rest.drop 16)
  else none

/-- Split an envelope's characters into IV, tag and ciphertext components,
rejecting any shape without the `v1` version tag and the colon-delimited
fields. -/
def parseEnvelopeChars : List Char → Option (Nat × Nat × List Nat)
  | 'v' :: '1' :: ':' :: rest => parseIvField rest
  | _ => none

/-- Split an envelope string into its IV, tag and ciphertext components,
rejecting any other shape (`none` models the "Invalid encrypted secret
format" error). -/
def parseEnvelope (s : String) : Option (Nat × Nat × List Nat) :=
  parseEnvelopeChars s.data

/-- `encryptSecretValueWithKey(plaintext, key)` of `crypto.ts`, with the
fresh random IV drawn by the implementation passed explicitly (only its
low 96 bits are used, as a 12-byte GCM IV). -/
def encryptSecretValueWithKey (plaintext : List Nat) (key : Nat) (iv : Nat) :
    EncryptedSecret :=
  let iv' := iv % 64 ^ 16
  let ct := encBytes key iv' 0 plaintext
  ⟨⟨mkEnvelopeChars iv' (authTag key iv' ct) ct⟩⟩

/-- `decryptSecretValueWithKey(wrapper, key)` of `crypto.ts`: parse the
envelope, verify the authentication tag, and decrypt; a malformed envelope
or failed verification throws. -/
def decryptSecretValueWithKey (e : EncryptedSecret) (key : Nat) :
    Except String (List Nat) :=
  match parseEnvelope e.__encrypted with
  | none => .error "Invalid encrypted secret format"
  | some (iv, tag, ct) =>
    if authTag key iv ct = tag then .ok (decBytes key iv 0 ct)
    else .error "Unsupported state or unable to authenticate data"

/-- `deriveKeyFromSecret(secret)` of `crypto.ts`: derive the symmetric key
from the application secret (modelled as a deterministic hash). -/
def deriveKeyFromSecret (s : String) : Nat :=
  s.data.foldl (fun a c => a * 1000003 + c.toNat + 1) 7

/-- A value stored in the `secret` column: either the encrypted wrapper
object or (transiently, mid-migration) a plaintext JSON object, the latter
represented by its JSON serialization bytes. -/
inductive StoredSecret where
  | enc (e : EncryptedSecret)
  | plain (p : List Nat)
deriving DecidableEq, Repr

/-- `isEncryptedSecret(value)` of `crypto.ts`: true exactly for the wrapper
shape whose string field starts with `v1:`. -/
def isEncryptedSecret : StoredSecret → Bool
  | .enc e => ['v', '1', ':'].isPrefixOf e.__encrypted.data
  | .plain _ => false

/-- `encryptSecretValue(plaintext)` of `crypto.ts`: the ambient-key
convenience wrapper; reads `config.auth.secret` (here a parameter) and
throws "ARCHESTRA_AUTH_SECRET is required" when it is unset. -/
def encryptSecretValue (cfgSecret : Option String) (plaintext : List Nat)
    (iv : Nat) : Except String EncryptedSecret :=
  match cfgSecret with
  | none => .error "ARCHESTRA_AUTH_SECRET is required to encrypt secrets"
  | some s => .ok (encryptSecretValueWithKey plaintext (deriveKeyFromSecret s) iv)

/-- `decryptSecretValue(wrapper)` of `crypto.ts`: the ambient-key
convenience wrapper of `decryptSecretValueWithKey`. -/
def decryptSecretValue (cfgSecret : Option String) (e : EncryptedSecret) :
    Except String (List Nat) :=
  match cfgSecret with
  | none => .error "ARCHESTRA_AUTH_SECRET is required to encrypt secrets"
  | some s => decryptSecretValueWithKey e (deriveKeyFromSecret s)

theorem keystreamByte_lt (key iv i : Nat) : keystreamByte key iv i < 256 := by
  rw [keystreamByte]; exact Nat.mod_lt _ (by norm_num)

theorem authTag_lt (key iv : Nat) (ct : List Nat) :
    authTag key iv ct < 64 ^ 22 := by
  rw [authTag]; exact Nat.mod_lt _ (by norm_num)

theorem byte_roundtrip (p k : Nat) (hp : p < 256) (hk : k < 256) :
    ((p + k) % 256 + 256 - k) % 256 = p := by
  have h1 : (p + k) % 256 + 256 - k = (p + k) % 256 + (256 - k) := by omega
  rw [h1, Nat.add_mod, Nat.mod_mod_of_dvd, ← Nat.add_mod]
  · have h2 : p + k + (256 - k) = p + 256 := by omega
    rw [h2, Nat.add_mod_right, Nat.mod_eq_of_lt hp]
  · exact dvd_refl _

theorem decBytes_encBytes (key iv : Nat) (p : List Nat) (i : Nat)
    (hp : ∀ b ∈ p, b < 256) :
    decBytes key iv i (encBytes key iv i p) = p := by
  induction p generalizing i with
  | nil => rfl
  | cons b bs ih =>
    rw [encBytes, decBytes,
      byte_roundtrip b _ (hp b (by simp)) (keystreamByte_lt key iv i),
      ih _ (fun x hx => hp x (by simp [hx]))]

theorem parseCt_renderCt (ct : List Nat) (hct : ∀ b ∈ ct, b < 256) :
    parseCt (renderCt ct) = some ct := by
  induction ct with
  | nil => rfl
  | cons b bs ih =>
    have hb : b < 256 := hct b (by simp)
    have : renderCt (b :: bs) =
        b64Char (b % 64) :: b64Char (b / 64 % 64) :: renderCt bs := by
      simp [renderCt, encNat]
    rw [this, parseCt, ih (fun x hx => hct x (by simp [hx]))]
    have : decNat [b64Char (b % 64), b64Char (b / 64 % 64)] = b := by
      have h1 : decNat [b64Char (b % 64), b64Char (b / 64 % 64)] =
          decNat (encNat 2 b) := by simp [encNat, decNat]
      rw [h1, decNat_encNat 2 b (by omega)]
    simp [this]

theorem take_append_left {α : Type} (l₁ l₂ : List α) (n : Nat)
    (h : l₁.length = n) : (l₁ ++ l₂).take n = l₁ := by
  subst h; exact List.take_left _ _

theorem drop_append_left {α : Type} (l₁ l₂ : List α) (n : Nat)
    (h : l₁.length = n) : (l₁ ++ l₂).drop n = l₂ := by
  subst h; exact List.drop_left _ _

theorem parseEnvelope_mkEnvelope (iv tag : Nat) (ct : List Nat)
    (hiv : iv < 64 ^ 16) (htag : tag < 64 ^ 22) (hct : ∀ b ∈ ct, b < 256) :
    parseEnvelope ⟨mkEnvelopeChars iv tag ct⟩ = some (iv, tag, ct) := by
  have hdata : (String.mk (mkEnvelopeChars iv tag ct)).data =
      mkEnvelopeChars iv tag ct := rfl
  rw [parseEnvelope, hdata, mkEnvelopeChars]
  have hshape : ['v', '1', ':'] ++ encNat 16 iv ++ [':'] ++ encNat 22 tag
      ++ [':'] ++ renderCt ct = 'v' :: '1' :: ':' ::
      (encNat 16 iv ++ (':' :: (encNat 22 tag ++ (':' :: renderCt ct)))) := by
    simp
  rw [hshape]
  rw [show parseEnvelopeChars ('v' :: '1' :: ':' ::
      (encNat 16 iv ++ (':' :: (encNat 22 tag ++ (':' :: renderCt ct)))))
    = parseIvField (encNat 16 iv ++ (':' :: (encNat 22 tag
        ++ (':' :: renderCt ct)))) from rfl]
  rw [parseIvField,
    take_append_left _ _ 16 (length_encNat 16 iv),
    drop_append_left _ _ 16 (length_encNat 16 iv),
    if_pos (length_encNat 16 iv)]
  rw [show parseTagSep (encNat 16 iv)
      (':' :: (encNat 22 tag ++ (':' :: renderCt ct)))
    = parseTagField (encNat 16 iv) (encNat 22 tag ++ (':' :: renderCt ct))
    from rfl]
  rw [parseTagField,
    take_append_left _ _ 22 (length_encNat 22 tag),
    drop_append_left _ _ 22 (length_encNat 22 tag),
    if_pos (length_encNat 22 tag)]
  rw [show parseCtSep (encNat 16 iv) (encNat 22 tag) (':' :: renderCt ct)
    = (parseCt (renderCt ct)).map
        (fun c => (decNat (encNat 16 iv), decNat (encNat 22 tag), c)) from rfl]
  rw [parseCt_renderCt ct hct, decNat_encNat 16 iv hiv,
    decNat_encNat 22 tag htag]
  rfl

theorem encBytes_bounded (key iv i : Nat) (p : List Nat) :
    ∀ b ∈ encBytes key iv i p, b < 256 := by
  induction p generalizing i with
  | nil => simp [encBytes]
  | cons b bs ih =>
    intro x hx
    rw [encBytes] at hx
    rcases List.mem_cons.mp hx with h | h
    · rw [h]; exact Nat.mod_lt _ (by norm_num)
    · exact ih (i + 1) x h

/-- Decrypting a freshly encrypted value with the same key always succeeds
and recovers the cipher's plaintext bytes. -/
theorem decrypt_encrypt_withKey (plaintext : List Nat) (key iv : Nat) :
    decryptSecretValueWithKey (encryptSecretValueWithKey plaintext key iv) key
      = .ok (decBytes key (iv % 64 ^ 16) 0
          (encBytes key (iv % 64 ^ 16) 0 plaintext)) := by
  rw [show encryptSecretValueWithKey plaintext key iv
    = ⟨⟨mkEnvelopeChars (iv % 64 ^ 16)
        (authTag key (iv % 64 ^ 16) (encBytes key (iv % 64 ^ 16) 0 plaintext))
        (encBytes key (iv % 64 ^ 16) 0 plaintext)⟩⟩ from rfl]
  rw [decryptSecretValueWithKey]
  rw [parseEnvelope_mkEnvelope _ _ _
    (Nat.mod_lt _ (by norm_num))
    (authTag_lt _ _ _)
    (encBytes_bounded _ _ _ _)]
  simp

/-- Round trip: decrypting an encryption of byte-valued plaintext recovers
it exactly. -/
theorem decrypt_encrypt_roundtrip (plaintext : List Nat) (key iv : Nat)
    (hp : ∀ b ∈ plaintext, b < 256) :
    decryptSecretValueWithKey (encryptSecretValueWithKey plaintext key iv) key
      = .ok plaintext := by
  rw [decrypt_encrypt_withKey, decBytes_encBytes _ _ _ _ hp]

theorem mkEnvelopeChars_iv_inj (iv₁ iv₂ tag₁ tag₂ : Nat)
    (ct₁ ct₂ : List Nat) (h1 : iv₁ < 64 ^ 16) (h2 : iv₂ < 64 ^ 16)
    (heq : mkEnvelopeChars iv₁ tag₁ ct₁ = mkEnvelopeChars iv₂ tag₂ ct₂) :
    iv₁ = iv₂ := by
  rw [mkEnvelopeChars, mkEnvelopeChars] at heq
  have htail : encNat 16 iv₁ ++ ([':'] ++ (encNat 22 tag₁ ++ ([':']
      ++ renderCt ct₁))) = encNat 16 iv₂ ++ ([':'] ++ (encNat 22 tag₂
      ++ ([':'] ++ renderCt ct₂))) := by
    have := heq
    simp only [List.append_assoc] at this
    simpa using this
  have hiv : encNat 16 iv₁ = encNat 16 iv₂ := by
    have := congrArg (List.take 16) htail
    rwa [take_append_left _ _ 16 (length_encNat 16 iv₁),
      take_append_left _ _ 16 (length_encNat 16 iv₂)] at this
  have := congrArg decNat hiv
  rwa [decNat_encNat 16 iv₁ h1, decNat_encNat 16 iv₂ h2] at this

/-- Distinct (96-bit) IVs yield distinct `__encrypted` envelope strings,
whatever the plaintexts. -/
theorem encrypt_iv_ne (p₁ p₂ : List Nat) (key iv₁ iv₂ : Nat)
    (hiv : iv₁ % 64 ^ 16 ≠ iv₂ % 64 ^ 16) :
    (encryptSecretValueWithKey p₁ key iv₁).__encrypted ≠
      (encryptSecretValueWithKey p₂ key iv₂).__encrypted := by
  intro h
  apply hiv
  have hchars : mkEnvelopeChars (iv₁ % 64 ^ 16)
      (authTag key (iv₁ % 64 ^ 16) (encBytes key (iv₁ % 64 ^ 16) 0 p₁))
      (encBytes key (iv₁ % 64 ^ 16) 0 p₁)
      = mkEnvelopeChars (iv₂ % 64 ^ 16)
      (authTag key (iv₂ % 64 ^ 16) (encBytes key (iv₂ % 64 ^ 16) 0 p₂))
      (encBytes key (iv₂ % 64 ^ 16) 0 p₂) :=
    congrArg String.data h
  exact mkEnvelopeChars_iv_inj _ _ _ _ _ _
    (Nat.mod_lt _ (by norm_num)) (Nat.mod_lt _ (by norm_num)) hchars

/-! ## Key-rotation script (`rotate-secret-encryption-key.ts`)

`rotateSecretEncryptionKey` is embedded directly from the source.  The
`secret` table is a list of rows; `db.transaction` becomes an `Except`
computation: an error outcome writes no row (the transaction rolls back),
an `ok` outcome returns the fully rewritten table.  The fresh random IV
each `encryptSecretValueWithKey` call draws is supplied by `ivs`, indexed
by row position. -/

/-- A row of the `secret` table. -/
structure SecretRow where
  id : Nat
  secret : StoredSecret
deriving DecidableEq, Repr

/-- The counts returned by the rotation script. -/
structure RotationCounts where
  total : Nat
  reEncrypted : Nat
  newlyEncrypted : Nat
deriving DecidableEq, Repr

/-- The JSON serialization bytes of a stored secret value read as a
plaintext object (the `plaintext = row.secret` branch of the script):
for a legacy plaintext row its own bytes; for a wrapper-shaped value that
failed the `v1:` check, the bytes of the wrapper object itself. -/
def storedPlainBytes : StoredSecret → List Nat
  | .plain p => p
  | .enc e => e.__encrypted.data.map (fun c => c.toNat)

/-- The dry-run pass of the script: decrypt-verify every encrypted row
with the old key (a failure propagates out of the script), counting
re-encryptable and still-plaintext rows.  No row is written. -/
def dryRunCounts (oldKey : Nat) : List SecretRow → Except String (Nat × Nat)
  | [] => .ok (0, 0)
  | r :: rs =>
    match r.secret with
    | .enc e =>
      if isEncryptedSecret (.enc e) then
        match decryptSecretValueWithKey e oldKey with
        | .error msg => .error msg
        | .ok _ =>
          match dryRunCounts oldKey rs with
          | .error msg => .error msg
          | .ok (a, b) => .ok (a + 1, b)
      else
        match dryRunCounts oldKey rs with
        | .error msg => .error msg
        | .ok (a, b) => .ok (a, b + 1)
    | .plain _ =>
      match dryRunCounts oldKey rs with
      | .error msg => .error msg
      | .ok (a, b) => .ok (a, b + 1)

/-- The transaction body of the script: each row is decrypted with the old
key (when wrapper-shaped) or read as plaintext, then re-encrypted with the
new key; any failure aborts the whole transaction. -/
def reencryptRows (oldKey newKey : Nat) (ivs : Nat → Nat) :
    Nat → List SecretRow → Except String (List SecretRow × Nat × Nat)
  | _, [] => .ok ([], 0, 0)
  | idx, r :: rs =>
    match r.secret with
    | .enc e =>
      if isEncryptedSecret (.enc e) then
        match decryptSecretValueWithKey e oldKey with
        | .error msg => .error msg
        | .ok p =>
          match reencryptRows oldKey newKey ivs (idx + 1) rs with
          | .error msg => .error msg
          | .ok (rs', a, b) =>
            .ok ({ r with
              secret := .enc (encryptSecretValueWithKey p newKey (ivs idx)) }
              :: rs', a + 1, b)
      else
        match reencryptRows oldKey newKey ivs (idx + 1) rs with
        | .error msg => .error msg
        | .ok (rs', a, b) =>
          .ok ({ r with secret := .enc (encryptSecretValueWithKey
            (storedPlainBytes r.secret) newKey (ivs idx)) } :: rs', a, b + 1)
    | .plain p =>
      match reencryptRows oldKey newKey ivs (idx + 1) rs with
      | .error msg => .error msg
      | .ok (rs', a, b) =>
        .ok ({ r with
          secret := .enc (encryptSecretValueWithKey p newKey (ivs idx)) }
          :: rs', a, b + 1)

/-- `rotateSecretEncryptionKey({oldSecret, newSecret, dryRun})` of
`rotate-secret-encryption-key.ts`, over a table of secret rows.  Returns
the resulting table together with the
`{total, reEncrypted, newlyEncrypted}` counts; an `error` outcome means
the script threw, writing no row. -/
def rotateSecretEncryptionKey (oldSecret newSecret : String) (dryRun : Bool)
    (ivs : Nat → Nat) (rows : List SecretRow) :
    Except String (List SecretRow × RotationCounts) :=
  if oldSecret = newSecret then
    .error "Old and new secrets are identical — nothing to rotate."
  else
    let oldKey := deriveKeyFromSecret oldSecret
    let newKey := deriveKeyFromSecret newSecret
    if dryRun then
      match dryRunCounts oldKey rows with
      | .error msg => .error msg
      | .ok (a, b) => .ok (rows, ⟨rows.length, a, b⟩)
    else
      match reencryptRows oldKey newKey ivs 0 rows with
      | .error msg => .error msg
      | .ok (rows', a, b) => .ok (rows', ⟨rows.length, a, b⟩)

/-- A freshly produced envelope is recognized by `isEncryptedSecret`. -/
theorem isEncryptedSecret_encrypt (p : List Nat) (key iv : Nat) :
    isEncryptedSecret (.enc (encryptSecretValueWithKey p key iv)) = true := by
  simp [isEncryptedSecret, encryptSecretValueWithKey, mkEnvelopeChars,
    List.isPrefixOf]

theorem dryRunCounts_ok (oldKey : Nat) (rows : List SecretRow) (a b : Nat)
    (h : dryRunCounts oldKey rows = .ok (a, b)) :
    a = rows.countP (fun r => isEncryptedSecret r.secret) ∧
      b = rows.countP (fun r => !isEncryptedSecret r.secret) := by
  induction rows generalizing a b with
  | nil =>
    rw [dryRunCounts] at h
    injection h with h
    injection h with h1 h2
    simp [h1.symm, h2.symm]
  | cons r rs ih =>
    rw [dryRunCounts] at h
    rcases hr : r.secret with e | p
    · rw [hr] at h
      by_cases henc : isEncryptedSecret (.enc e) = true
      · rcases hdec : decryptSecretValueWithKey e oldKey with msg | q
        · simp [henc, hdec] at h
        · rcases hrec : dryRunCounts oldKey rs with msg | ab
          · simp [henc, hdec, hrec] at h
          · rcases ab with ⟨a', b'⟩
            simp only [henc, hdec, hrec, if_true] at h
            injection h with h
            injection h with h1 h2
            obtain ⟨ha, hb⟩ := ih a' b' hrec
            constructor
            · simp [List.countP_cons, hr, henc, ← h1, ha]
            · simp [List.countP_cons, hr, henc, ← h2, hb]
      · rcases hrec : dryRunCounts oldKey rs with msg | ab
        · simp [henc, hrec] at h
        · rcases ab with ⟨a', b'⟩
          simp only [henc, hrec, if_false, Bool.false_eq_true] at h
          injection h with h
          injection h with h1 h2
          obtain ⟨ha, hb⟩ := ih a' b' hrec
          constructor
          · simp [List.countP_cons, hr, henc, ← h1, ha]
          · simp [List.countP_cons, hr, henc, ← h2, hb]
    · rw [hr] at h
      rcases hrec : dryRunCounts oldKey rs with msg | ab
      · simp [hrec] at h
      · rcases ab with ⟨a', b'⟩
        simp only [hrec] at h
        injection h with h
        injection h with h1 h2
        obtain ⟨ha, hb⟩ := ih a' b' hrec
        constructor
        · simp [List.countP_cons, hr, isEncryptedSecret, ← h1, ha]
        · simp [List.countP_cons, hr, isEncryptedSecret, ← h2, hb]

/-- The wrapper object stored in a row, when there is one. -/
def storedEnvelope : StoredSecret → EncryptedSecret
  | .enc e => e
  | .plain _ => ⟨""⟩

theorem reencryptRows_ok (oldKey newKey : Nat) (ivs : Nat → Nat)
    (idx : Nat) (rows rows' : List SecretRow) (a b : Nat)
    (h : reencryptRows oldKey newKey ivs idx rows = .ok (rows', a, b)) :
    rows'.length = rows.length ∧
      ∀ r' ∈ rows', isEncryptedSecret r'.secret = true ∧
        ∃ p, decryptSecretValueWithKey (storedEnvelope r'.secret) newKey
          = .ok p := by
  induction rows generalizing idx rows' a b with
  | nil =>
    rw [reencryptRows] at h
    injection h with h
    injection h with h1 h2
    subst h1
    simp
  | cons r rs ih =>
    rw [reencryptRows] at h
    have step : ∀ (q : List Nat) (rest' : List SecretRow) (a' b' : Nat),
        reencryptRows oldKey newKey ivs (idx + 1) rs = .ok (rest', a', b') →
        rows' = { r with
          secret := .enc (encryptSecretValueWithKey q newKey (ivs idx)) }
          :: rest' →
        rows'.length = (r :: rs).length ∧
          ∀ r' ∈ rows', isEncryptedSecret r'.secret = true ∧
            ∃ p, decryptSecretValueWithKey (storedEnvelope r'.secret) newKey
              = .ok p := by
      intro q rest' a' b' hrec hshape
      obtain ⟨hlen, hall⟩ := ih (idx + 1) rest' a' b' hrec
      subst hshape
      refine ⟨by simp [hlen], ?_⟩
      intro r' hr'
      rcases List.mem_cons.mp hr' with hhead | htail
      · subst hhead
        refine ⟨isEncryptedSecret_encrypt _ _ _, ?_⟩
        exact ⟨_, decrypt_encrypt_withKey q newKey (ivs idx)⟩
      · exact hall r' htail
    rcases hr : r.secret with e | p
    · rw [hr] at h
      by_cases henc : isEncryptedSecret (.enc e) = true
      · rcases hdec : decryptSecretValueWithKey e oldKey with msg | q
        · simp [henc, hdec] at h
        · rcases hrec : reencryptRows oldKey newKey ivs (idx + 1) rs
            with msg | res
          · simp [henc, hdec, hrec] at h
          · rcases res with ⟨rest', a', b'⟩
            simp only [henc, hdec, hrec, if_true] at h
            injection h with h
            injection h with h1 h2
            exact step q rest' a' b' hrec h1.symm
      · rcases hrec : reencryptRows oldKey newKey ivs (idx + 1) rs
          with msg | res
        · simp [henc, hrec] at h
        · rcases res with ⟨rest', a', b'⟩
          simp only [henc, hrec, if_false, Bool.false_eq_true] at h
          injection h with h
          injection h with h1 h2
          exact step _ rest' a' b' hrec h1.symm
    · rw [hr] at h
      rcases hrec : reencryptRows oldKey newKey ivs (idx + 1) rs
        with msg | res
      · simp [hrec] at h
      · rcases res with ⟨rest', a', b'⟩
        simp only [hrec] at h
        injection h with h
        injection h with h1 h2
        exact step p rest' a' b' hrec h1.symm

/-! ## Database retry layer (`retry.ts`)

Embedded from the source in `src/unnamed/part_008`.  A JavaScript value is
observed by `isTransientDbError` only through: being an `Error` or not,
its `message`, its optional `code` property, and its optional `cause`.
The backoff sleep between attempts does not affect results or call counts
and is not modelled. -/

/-- A JavaScript value as the retry layer observes it: a non-`Error`
value, or an `Error` with a message, an optional `code` property, and
either no (truthy) `cause` or a `cause` value.  A falsy `cause` and an
absent one are identified (the source skips recursion for both), and a
non-`Error` truthy `cause` is `cause .nonError` (the recursion enters it
and immediately returns false, as the source does). -/
inductive JsVal where
  | nonError : JsVal
  | error (message : String) (code : Option String) : JsVal
  | errorCause (message : String) (code : Option String) (cause : JsVal) : JsVal
deriving DecidableEq, Repr

/-- `TRANSIENT_PG_CODES`: PostgreSQL SQLSTATE codes treated as transient. -/
def TRANSIENT_PG_CODES : List String :=
  ["08000", "08001", "08003", "08004", "08006", "57P01", "57P02", "57P03"]

/-- `TRANSIENT_ERROR_PATTERNS`: message substrings treated as transient. -/
def TRANSIENT_ERROR_PATTERNS : List String :=
  ["ECONNREFUSED", "ECONNRESET", "EPIPE", "ETIMEDOUT",
   "Connection terminated", "timeout expired"]

/-- `MAX_CAUSE_DEPTH`: bound on cause-chain traversal. -/
def MAX_CAUSE_DEPTH : Nat := 5

/-- Whether `pat` occurs as a contiguous run inside `l`. -/
def listContains (pat : List Char) : List Char → Bool
  | [] => pat.isPrefixOf []
  | c :: cs => pat.isPrefixOf (c :: cs) || listContains pat cs

/-- JavaScript's `message.includes(pattern)`. -/
def strIncludes (msg pat : String) : Bool := listContains pat.data msg.data

/-- The truthy-`code`-in-`TRANSIENT_PG_CODES` check
(`pgCode && TRANSIENT_PG_CODES.has(pgCode)`). -/
def codeIsTransient : Option String → Bool
  | some c => c ≠ "" && TRANSIENT_PG_CODES.contains c
  | none => false

/-- The message-pattern check
(`TRANSIENT_ERROR_PATTERNS.some((pattern) => message.includes(pattern))`). -/
def messageIsTransient (message : String) : Bool :=
  TRANSIENT_ERROR_PATTERNS.any (fun p => strIncludes message p)

/-- `isTransientDbError(error, depth)` of `retry.ts`. -/
def isTransientDbError : JsVal → Nat → Bool
  | .nonError, _ => false
  | .error message code, depth =>
    if depth > MAX_CAUSE_DEPTH then false
    else if codeIsTransient code then true
    else if messageIsTransient message then true
    else false
  | .errorCause message code cause, depth =>
    if depth > MAX_CAUSE_DEPTH then false
    else if codeIsTransient code then true
    else if messageIsTransient message then true
    else isTransientDbError cause (depth + 1)

/-- Whether one error's own code or message matches the transient
criteria (the non-recursive part of `isTransientDbError`). -/
def errMatches (message : String) (code : Option String) : Bool :=
  codeIsTransient code || messageIsTransient message

/-- The `(message, code)` pairs along a value's cause chain, following
`cause` links through `Error` values. -/
def errSpine : JsVal → List (String × Option String)
  | .nonError => []
  | .error m c => [(m, c)]
  | .errorCause m c cause => (m, c) :: errSpine cause

theorem isTransientDbError_deep (v : JsVal) (depth : Nat)
    (h : MAX_CAUSE_DEPTH < depth) : isTransientDbError v depth = false := by
  cases v with
  | nonError => rfl
  | error m c => rw [isTransientDbError, if_pos h]
  | errorCause m c cause => rw [isTransientDbError, if_pos h]

theorem isTransientDbError_spine (v : JsVal) (depth : Nat)
    (h : depth ≤ MAX_CAUSE_DEPTH) :
    isTransientDbError v depth =
      ((errSpine v).take (MAX_CAUSE_DEPTH + 1 - depth)).any
        (fun mc => errMatches mc.1 mc.2) := by
  have hmax : MAX_CAUSE_DEPTH = 5 := rfl
  rw [hmax] at h ⊢
  induction v generalizing depth with
  | nonError => simp [isTransientDbError, errSpine]
  | error m c =>
    have htake : 5 + 1 - depth = (5 - depth) + 1 := by omega
    rw [isTransientDbError, if_neg (by rw [hmax]; omega), errSpine, htake,
      List.take_succ_cons, List.any_cons]
    by_cases h1 : codeIsTransient c = true
    · simp [h1, errMatches]
    · by_cases h2 : messageIsTransient m = true
      · simp [h1, h2, errMatches]
      · simp [h1, h2, errMatches]
  | errorCause m c cause ih =>
    have htake : 5 + 1 - depth = (5 - depth) + 1 := by omega
    rw [isTransientDbError, if_neg (by rw [hmax]; omega), errSpine, htake,
      List.take_succ_cons, List.any_cons]
    by_cases h1 : codeIsTransient c = true
    · simp [h1, errMatches]
    · by_cases h2 : messageIsTransient m = true
      · simp [h1, h2, errMatches]
      · have hmatch : errMatches m c = false := by
          simp [errMatches, h1, h2]
        rw [if_neg h1, if_neg h2, hmatch]
        simp only [Bool.false_or]
        by_cases hd : depth = 5
        · subst hd
          rw [isTransientDbError_deep cause _ (by rw [hmax]; omega)]
          have h0 : 5 - 5 = 0 := by omega
          rw [h0]
          simp
        · have h5 : depth + 1 ≤ 5 := by omega
          rw [ih (depth + 1) h5]
          have harg : 5 + 1 - (depth + 1) = 5 - depth := by omega
          rw [harg]

/-- The outcome of one invocation of the async function passed to
`withDbRetry`: resolve with a value or reject with an error value. -/
inductive CallOutcome (α : Type) where
  | ok (value : α)
  | err (e : JsVal)
deriving DecidableEq, Repr

/-- `MAX_RETRIES` of `retry.ts`: the default retry budget. -/
def MAX_RETRIES : Nat := 3

/-- The `for (let attempt = 0; attempt <= maxRetries; attempt++)` loop of
`withDbRetry`, entered at iteration `attempt`; `fn n` is the outcome of
the `n`-th invocation of the retried function.  Returns the settled
result together with the total number of invocations made (the sleep
between attempts does not affect either).  The loop always returns or
throws before `attempt` exceeds `maxRetries`, so the trailing
`throw new Error("withDbRetry: unreachable")` has no counterpart here. -/
def withDbRetryGo {α : Type} (fn : Nat → CallOutcome α) (maxRetries : Nat)
    (attempt : Nat) : Except JsVal α × Nat :=
  match fn attempt with
  | .ok v => (.ok v, attempt + 1)
  | .err e =>
    if h : isTransientDbError e 0 = true ∧ attempt < maxRetries then
      withDbRetryGo fn maxRetries (attempt + 1)
    else (.error e, attempt + 1)
termination_by maxRetries - attempt
decreasing_by
  have := h.2
  omega

/-- `withDbRetry(fn, { maxRetries })` of `retry.ts`, together with the
number of times `fn` was invoked. -/
def withDbRetry {α : Type} (fn : Nat → CallOutcome α) (maxRetries : Nat) :
    Except JsVal α × Nat :=
  withDbRetryGo fn maxRetries 0

theorem withDbRetryGo_allTransient {α : Type} (fn : Nat → CallOutcome α)
    (es : Nat → JsVal) (N : Nat)
    (hfn : ∀ n, fn n = .err (es n))
    (htr : ∀ n, isTransientDbError (es n) 0 = true) :
    ∀ k t, t ≤ N → N - t = k →
      withDbRetryGo fn N t = (.error (es N), N + 1) := by
  intro k
  induction k with
  | zero =>
    intro t ht hk
    have heq : t = N := by omega
    subst heq
    rw [withDbRetryGo]
    simp only [hfn t]
    rw [dif_neg (fun h => absurd h.2 (lt_irrefl t))]
  | succ k ih =>
    intro t ht hk
    rw [withDbRetryGo]
    simp only [hfn t]
    rw [dif_pos ⟨htr t, by omega⟩]
    exact ih (t + 1) (by omega) (by omega)

theorem withDbRetryGo_succeedAt {α : Type} (fn : Nat → CallOutcome α)
    (es : Nat → JsVal) (v : α) (N k : Nat)
    (hfn : ∀ n < k, fn n = .err (es n))
    (htr : ∀ n < k, isTransientDbError (es n) 0 = true)
    (hk : k ≤ N) (hok : fn k = .ok v) :
    ∀ j t, t ≤ k → k - t = j →
      withDbRetryGo fn N t = (.ok v, k + 1) := by
  intro j
  induction j with
  | zero =>
    intro t ht hj
    have heq : t = k := by omega
    subst heq
    rw [withDbRetryGo]
    simp only [hok]
  | succ j ih =>
    intro t ht hj
    rw [withDbRetryGo]
    simp only [hfn t (by omega)]
    rw [dif_pos ⟨htr t (by omega), by omega⟩]
    exact ih (t + 1) (by omega) (by omega)

/-! ## SsoProviderModel (`sso-provider.ts`, second part of
`models/secret.ts` in the source dump)

The `sso_provider` table is a list of rows; Drizzle's
`select/update/delete ... where(and(eq id, eq organizationId))` becomes
filtering on the same predicate.  The JSON `oidcConfig`/`samlConfig`
blobs are kept as opaque strings (the model layer only `JSON.parse`s them
on read, which does not affect presence). -/

/-- A row of the `sso_provider` table. -/
structure SsoProviderRow where
  id : String
  providerId : String
  issuer : Option String
  domain : Option String
  organizationId : String
  oidcConfig : Option String
  samlConfig : Option String
deriving DecidableEq, Repr

/-- The projection returned by `findAllPublic`: by construction it has
exactly the two fields `id` and `providerId` and nothing else. -/
structure PublicSsoProvider where
  id : String
  providerId : String
deriving DecidableEq, Repr

/-- `SsoProviderModel.findAllPublic()`. -/
def findAllPublic (rows : List SsoProviderRow) : List PublicSsoProvider :=
  rows.map (fun r => { id := r.id, providerId := r.providerId })

/-- Whether a row matches the `and(eq(id), eq(organizationId))` clause. -/
def ssoRowMatches (id organizationId : String) (r : SsoProviderRow) : Bool :=
  r.id == id && r.organizationId == organizationId

/-- `SsoProviderModel.findById(id, organizationId)` (the returned object
also carries parsed configs; parsing the JSON text does not change which
row is returned, so the row itself stands for the result). -/
def ssoFindById (id organizationId : String) (rows : List SsoProviderRow) :
    Option SsoProviderRow :=
  rows.find? (ssoRowMatches id organizationId)

/-- `SsoProviderModel.update(id, data, organizationId)`: re-verify
ownership via `findById`, then update the matching rows and return the
first updated row (or `null`), together with the new table. -/
def ssoUpdate (id : String) (data : SsoProviderRow → SsoProviderRow)
    (organizationId : String) (rows : List SsoProviderRow) :
    Option SsoProviderRow × List SsoProviderRow :=
  match ssoFindById id organizationId rows with
  | none => (none, rows)
  | some _ =>
    let newRows := rows.map (fun r =>
      if ssoRowMatches id organizationId r then data r else r)
    match (rows.filter (ssoRowMatches id organizationId)).map data with
    | [] => (none, newRows)
    | u :: _ => (some u, newRows)

/-- `SsoProviderModel.delete(id, organizationId)`: re-verify ownership via
`findById`, then delete the matching rows, returning whether any row was
deleted, together with the new table. -/
def ssoDelete (id organizationId : String) (rows : List SsoProviderRow) :
    Bool × List SsoProviderRow :=
  match ssoFindById id organizationId rows with
  | none => (false, rows)
  | some _ =>
    let deleted := rows.filter (ssoRowMatches id organizationId)
    (decide (0 < deleted.length),
      rows.filter (fun r => !ssoRowMatches id organizationId r))

/-! ## InteractionModel (`interaction.ts`, embedded in the source dump
alongside `interaction.test.ts`) -/

/-- A row of the `interactions` table (the fields
`checkIfChatIsTrusted` can observe). -/
structure InteractionRow where
  chatId : String
  trusted : Bool
  blocked : Bool
deriving DecidableEq, Repr

/-- `InteractionModel.checkIfChatIsTrusted(chatId)`: select the
interactions of the chat with `trusted = false` and test that none
exist. -/
def checkIfChatIsTrusted (chatId : String) (rows : List InteractionRow) :
    Bool :=
  (rows.filter (fun r =>
    r.chatId == chatId && r.trusted == false)).length == 0

/-! ## Organization model and routes (`organization.ts` model,
logo-upload route, organization PATCH route) -/

/-- JavaScript's `s.startsWith(pre)`. -/
def strStartsWith (s pre : String) : Bool := pre.data.isPrefixOf s.data

/-- The PNG data-URI prefix required of logos. -/
def pngLogoPrefix : String := "data:image/png;base64,"

/-- The source's `logo.length > 2.66 * 1024 * 1024` test on an integer
length (`2.66 * 1024 * 1024 = 2789212.16`, so the comparison is
`100 * length > 278921216`). -/
def exceedsLogoMaxSize (len : Nat) : Bool := 278921216 < 100 * len

/-- A row of the `organization` table (the fields these routes touch). -/
structure Organization where
  id : String
  name : String
  theme : Option String
  customFont : Option String
  limitCleanupInterval : Option String
  logo : Option String
  logoType : Option String
deriving DecidableEq, Repr

/-- `OrganizationModel.updateAppearance(id, fields)`.  Modelled from the
spec: the implementation is not under `src/` (only its callers are); per
the spec it updates the given appearance fields of the organization row
and returns the updated row. -/
def updateAppearance (org : Organization) (logo : Option String)
    (logoType : Option String) : Organization :=
  { org with logo := logo, logoType := logoType }

/-- A field of a PATCH body: absent from the JSON object, or present with
a (possibly `null`) value. -/
inductive PatchField (α : Type) where
  | absent : PatchField α
  | value (v : α) : PatchField α
deriving DecidableEq, Repr

/-- The `UpdateOrganizationSchema.partial()` PATCH body: every field
optional; a present `logo` is a string or `null`. -/
structure UpdateOrganizationBody where
  theme : PatchField (Option String)
  customFont : PatchField (Option String)
  limitCleanupInterval : PatchField (Option String)
  logo : PatchField (Option String)
deriving DecidableEq, Repr

/-- Drizzle's `.set(data)`: write the fields present in the body. -/
def applyOrgPatch (data : UpdateOrganizationBody) (org : Organization) :
    Organization :=
  { org with
    theme := match data.theme with | .absent => org.theme | .value v => v
    customFont :=
      match data.customFont with | .absent => org.customFont | .value v => v
    limitCleanupInterval := match data.limitCleanupInterval with
      | .absent => org.limitCleanupInterval | .value v => v
    logo := match data.logo with | .absent => org.logo | .value v => v }

/-- `OrganizationModel.patch(id, data)`: validate a present-and-truthy
`logo` (PNG data-URI prefix, size bound), throwing on failure before any
write; then update the row with the given id and return the updated row
(or `null` when no row matched), together with the new table. -/
def organizationPatch (id : String) (data : UpdateOrganizationBody)
    (db : List Organization) :
    Except String (Option Organization × List Organization) :=
  match data.logo with
  | .value (some l) =>
    if l ≠ "" then
      if !strStartsWith l pngLogoPrefix then
        .error "Logo must be a PNG image in base64 format"
      else if exceedsLogoMaxSize l.length then
        .error "Logo must be less than 2MB"
      else
        .ok ((db.find? (fun o => o.id == id)).map (applyOrgPatch data),
          db.map (fun o => if o.id == id then applyOrgPatch data o else o))
    else
      .ok ((db.find? (fun o => o.id == id)).map (applyOrgPatch data),
        db.map (fun o => if o.id == id then applyOrgPatch data o else o))
  | _ =>
    .ok ((db.find? (fun o => o.id == id)).map (applyOrgPatch data),
      db.map (fun o => if o.id == id then applyOrgPatch data o else o))

/-- The `{error: {message, type}}` body of an error response. -/
structure ApiErrorBody where
  message : String
  type : String
deriving DecidableEq, Repr

/-- The reply of the organization PATCH route. -/
inductive PatchReply where
  | ok (org : Organization) : PatchReply
  | err (status : Nat) (body : ApiErrorBody) : PatchReply
deriving DecidableEq, Repr

/-- The `PATCH /api/organization` handler: call `OrganizationModel.patch`;
`null` becomes a 404, a thrown error is caught and becomes a 500 of type
`api_error` (and, the model having thrown before writing, leaves the
table unchanged). -/
def patchOrganizationHandler (organizationId : String)
    (body : UpdateOrganizationBody) (db : List Organization) :
    PatchReply × List Organization :=
  match organizationPatch organizationId body db with
  | .error msg => (.err 500 ⟨msg, "api_error"⟩, db)
  | .ok (none, db') => (.err 404 ⟨"Organization not found", "not_found"⟩, db')
  | .ok (some org, db') => (.ok org, db')

/-- The authenticated user as these routes observe it. -/
structure RequestUser where
  isAdmin : Bool
deriving DecidableEq, Repr

/-- The reply of the logo-upload route. -/
inductive LogoReply where
  | ok (success : Bool) (logo : Option String) : LogoReply
  | err (status : Nat) (body : ApiErrorBody) : LogoReply
deriving DecidableEq, Repr

/-- JavaScript's `x || null` over an optional string (an empty string is
falsy). -/
def jsOrNull (x : Option String) : Option String :=
  match x with
  | some s => if s = "" then none else some s
  | none => none

/-- The `POST /api/organization/logo` handler: 401 without a user, 403 for
a non-admin, 400 `validation_error` for a logo without the PNG data-URI
prefix or over the size bound (leaving the organization untouched),
otherwise store the logo with `logoType: "custom"` via
`updateAppearance`.  `user` is the result of `getUserFromRequest`; `org`
is the organization row (`getOrCreateDefaultOrganization` ensures one
exists). -/
def uploadOrganizationLogoHandler (user : Option RequestUser) (logo : String)
    (org : Organization) : LogoReply × Organization :=
  match user with
  | none => (.err 401 ⟨"Unauthorized", "unauthorized"⟩, org)
  | some u =>
    if !u.isAdmin then
      (.err 403 ⟨"Forbidden: Admin access required", "forbidden"⟩, org)
    else if !strStartsWith logo pngLogoPrefix then
      (.err 400 ⟨"Logo must be a PNG image in base64 format",
        "validation_error"⟩, org)
    else if exceedsLogoMaxSize logo.length then
      (.err 400 ⟨"Logo must be less than 2MB", "validation_error"⟩, org)
    else
      let org' := updateAppearance org (some logo) (some "custom")
      (.ok true (jsOrNull org'.logo), org')

/-! ## A2A routes (`a2a.ts` in the source dump, `part_017`)

The two handlers are embedded as functions of an environment recording
what each of their queries would return: the prompt row for `:promptId`,
the agent row for `prompt.agentId`, the extracted bearer token, the token
validation result, the user lookup, and (for the execution route) the
outcome of the `streamText` run.  `reply.send` without a status is an
HTTP 200; a thrown `ApiError` is an error reply with its status. -/

/-- A prompt row as the A2A routes observe it. -/
structure Prompt where
  id : String
  agentId : String
  name : String
  systemPrompt : Option String
  userPrompt : Option String
  version : Nat
deriving DecidableEq, Repr

/-- An agent row as the A2A routes observe it. -/
structure Agent where
  id : String
  name : String
deriving DecidableEq, Repr

/-- The result of `validateMCPGatewayToken`. -/
structure TokenAuth where
  organizationId : String
  userId : Option String
deriving DecidableEq, Repr

/-- A text message part (the body schema admits only `kind: "text"`). -/
structure MessagePart where
  text : String
deriving DecidableEq, Repr

/-- The optional `params.message.parts` of the JSON-RPC request body. -/
structure A2AParams where
  message : Option (Option (List MessagePart))
deriving DecidableEq, Repr

/-- The environment of one A2A request: what each query made by the
handler would return. -/
structure A2AEnv where
  prompt : Option Prompt
  agent : Option Agent
  token : Option String
  tokenAuth : Option TokenAuth
  userExists : Bool
  params : Option A2AParams
  execResult : Except String String
deriving Repr

/-- A JSON-RPC error object. -/
structure JsonRpcError where
  code : Int
  message : String
deriving DecidableEq, Repr

/-- A JSON-RPC result message. -/
structure A2AMessage where
  messageId : String
  role : String
  parts : List MessagePart
deriving DecidableEq, Repr

/-- The JSON-RPC response envelope. -/
structure JsonRpcResponse where
  id : String
  result : Option A2AMessage
  error : Option JsonRpcError
deriving DecidableEq, Repr

/-- An HTTP reply of the A2A execution route. -/
structure A2AReply where
  status : Nat
  body : JsonRpcResponse
deriving DecidableEq, Repr

/-- The extraction of the user message:
`params?.message?.parts?.filter(text).map(text).join("\n") || ""`. -/
def extractUserMessage (params : Option A2AParams) : String :=
  match params with
  | none => ""
  | some p =>
    match p.message with
    | none => ""
    | some none => ""
    | some (some parts) => String.intercalate "\n" (parts.map (·.text))

/-- A 200 reply carrying a JSON-RPC error. -/
def a2aError (reqId : String) (code : Int) (message : String) : A2AReply :=
  ⟨200, { id := reqId, result := none, error := some ⟨code, message⟩ }⟩

/-- The `POST {endpoint}/:promptId` A2A JSON-RPC execution handler. -/
def a2aExecuteHandler (env : A2AEnv) (reqId msgId : String) : A2AReply :=
  match env.prompt with
  | none => a2aError reqId (-32602) "Prompt not found"
  | some _ =>
    match env.agent with
    | none => a2aError reqId (-32602) "Agent not found for prompt"
    | some _ =>
      match env.token with
      | none => a2aError reqId (-32600)
        "Authorization header required. Use: Bearer <archestra_token>"
      | some _ =>
        match env.tokenAuth with
        | none => a2aError reqId (-32600) "Invalid or unauthorized token"
        | some ta =>
          if ta.userId.isSome && !env.userExists then
            a2aError reqId (-32600) "User not found for token"
          else if extractUserMessage env.params = "" then
            a2aError reqId (-32602) "No message content provided"
          else
            match env.execResult with
            | .error msg => a2aError reqId (-32603) msg
            | .ok finalText =>
              ⟨200, ⟨reqId, some ⟨msgId, "agent", [⟨finalText⟩]⟩, none⟩⟩

/-- JavaScript's `a || b` over an optional string (empty string falsy). -/
def jsOrStr (a : Option String) (b : String) : String :=
  match a with
  | some s => if s = "" then b else s
  | none => b

/-- The AgentCard of the discovery route. -/
structure AgentCard where
  name : String
  description : String
  url : String
  version : String
deriving DecidableEq, Repr

/-- The `GET {endpoint}/:promptId/.well-known/agent.json` AgentCard
handler: a thrown `ApiError(status, message)` is the error outcome. -/
def a2aAgentCardHandler (env : A2AEnv) (baseUrl endpoint : String) :
    Except (Nat × String) AgentCard :=
  match env.prompt with
  | none => .error (404, "Prompt not found")
  | some prompt =>
    match env.agent with
    | none => .error (404, "Agent not found for prompt")
    | some _ =>
      match env.token with
      | none => .error (401,
        "Authorization header required. Use: Bearer <archestra_token>")
      | some _ =>
        match env.tokenAuth with
        | none => .error (401, "Invalid or unauthorized token")
        | some _ =>
          .ok ⟨prompt.name,
            jsOrStr prompt.systemPrompt (jsOrStr prompt.userPrompt ""),
            baseUrl ++ endpoint ++ "/" ++ prompt.id,
            toString prompt.version⟩

/-! ## Claim theorems -/

/-- C4: `isTransientDbError(v)` returns true exactly when `v` is an
`Error` that, somewhere in its cause chain within the permitted depth of
5 (the first 6 chain entries: the error itself and up to 5 causes),
carries a code in the transient SQLSTATE set or a message containing one
of the transient substrings; it is false for every non-`Error` value
(whose spine is empty), for errors with only non-matching codes and
messages, and when the only matching error sits deeper than 5 causes
down the chain (beyond the first 6 entries). -/
theorem isTransientDbError_characterization (v : JsVal) :
    isTransientDbError v 0 =
      ((errSpine v).take 6).any (fun mc => errMatches mc.1 mc.2) := by
  have h := isTransientDbError_spine v 0 (Nat.zero_le _)
  simpa using h

/-- C6: `checkIfChatIsTrusted(c)` returns true exactly when no
interaction of chat `c` has `trusted = false`; in particular it is true
for a chat with zero interactions, and false as soon as any single
interaction of `c` (whatever its role or blocked flag) has
`trusted = false`. -/
theorem checkIfChatIsTrusted_spec (c : String) (rows : List InteractionRow) :
    (checkIfChatIsTrusted c rows = true ↔
      ∀ r ∈ rows, r.chatId = c → r.trusted = true) ∧
    checkIfChatIsTrusted c [] = true ∧
    (∀ r ∈ rows, r.chatId = c → r.trusted = false →
      checkIfChatIsTrusted c rows = false) := by
  have hiff : checkIfChatIsTrusted c rows = true ↔
      ∀ r ∈ rows, r.chatId = c → r.trusted = true := by
    rw [checkIfChatIsTrusted]
    simp only [beq_iff_eq, List.length_eq_zero, List.filter_eq_nil_iff]
    constructor
    · intro h r hr hc
      have := h r hr
      simpa [hc] using this
    · intro h r hr
      by_cases hc : r.chatId = c
      · have := h r hr hc
        simp [hc, this]
      · simp [hc]
  refine ⟨hiff, by rw [checkIfChatIsTrusted]; rfl, ?_⟩
  intro r hr hc ht
  cases hcheck : checkIfChatIsTrusted c rows with
  | false => rfl
  | true =>
    have := (hiff.mp hcheck) r hr hc
    rw [this] at ht
    exact absurd ht (by simp)

/-- Witness for C6: a single untrusted interaction makes the chat
untrusted, and an interaction-free chat is trusted. -/
theorem checkIfChatIsTrusted_spec_witness :
    checkIfChatIsTrusted "c1" [⟨"c1", false, true⟩] = false ∧
    checkIfChatIsTrusted "c1" [] = true :=
  ⟨(checkIfChatIsTrusted_spec "c1" [⟨"c1", false, true⟩]).2.2
      ⟨"c1", false, true⟩ (by decide) rfl rfl,
    (checkIfChatIsTrusted_spec "c1" []).2.1⟩

/-- C5: `findAllPublic` returns, for each provider row, exactly the
`{id, providerId}` projection (the `PublicSsoProvider` type has no other
field, so no config blob, issuer, domain or organizationId is exposed);
and when no row has both the requested id and the caller's organization
id, `findById` returns null, `update` returns null leaving the table
unchanged, and `delete` returns false leaving the table unchanged. -/
theorem ssoProviderModel_spec (rows : List SsoProviderRow) (p o : String) :
    findAllPublic rows
      = rows.map (fun r => { id := r.id, providerId := r.providerId }) ∧
    ((∀ r ∈ rows, ¬(r.id = p ∧ r.organizationId = o)) →
      ssoFindById p o rows = none ∧
      (∀ data, ssoUpdate p data o rows = (none, rows)) ∧
      ssoDelete p o rows = (false, rows)) := by
  refine ⟨rfl, ?_⟩
  intro hno
  have hfind : ssoFindById p o rows = none := by
    rw [ssoFindById, List.find?_eq_none]
    intro r hr
    have := hno r hr
    simp only [ssoRowMatches, Bool.and_eq_true, beq_iff_eq]
    intro hcontra
    exact this hcontra
  refine ⟨hfind, ?_, ?_⟩
  · intro data
    rw [ssoUpdate, hfind]
  · rw [ssoDelete, hfind]

/-- Witness for C5: a one-row table queried with the wrong organization
id is invisible to `findById`, `update` and `delete`. -/
theorem ssoProviderModel_spec_witness :
    ssoFindById "p1" "orgB"
      [⟨"p1", "Okta", none, none, "orgA", some "cfg", none⟩] = none ∧
    ssoDelete "p1" "orgB"
      [⟨"p1", "Okta", none, none, "orgA", some "cfg", none⟩]
      = (false, [⟨"p1", "Okta", none, none, "orgA", some "cfg", none⟩]) := by
  have h := (ssoProviderModel_spec
    [⟨"p1", "Okta", none, none, "orgA", some "cfg", none⟩] "p1" "orgB").2
    (by decide)
  exact ⟨h.1, h.2.2⟩

/-- C8: for an admin-authenticated logo upload, a logo with the PNG
data-URI prefix whose length does not exceed `2.66 * 1024 * 1024`
characters is accepted and stored (the organization row gets the logo
with `logoType: "custom"`); a logo lacking the prefix or longer than the
limit is rejected with HTTP 400 and error type `validation_error`,
leaving the organization unchanged. -/
theorem uploadOrganizationLogo_spec (u : RequestUser) (logo : String)
    (org : Organization) (hadmin : u.isAdmin = true) :
    (strStartsWith logo pngLogoPrefix = true →
      exceedsLogoMaxSize logo.length = false →
      uploadOrganizationLogoHandler (some u) logo org =
        (.ok true (jsOrNull (some logo)),
          updateAppearance org (some logo) (some "custom")) ∧
      (uploadOrganizationLogoHandler (some u) logo org).2.logo = some logo) ∧
    ((strStartsWith logo pngLogoPrefix = false ∨
        exceedsLogoMaxSize logo.length = true) →
      ∃ body, uploadOrganizationLogoHandler (some u) logo org
          = (.err 400 body, org) ∧
        body.type = "validation_error") := by
  constructor
  · intro hpre hsize
    rw [uploadOrganizationLogoHandler]
    simp only [hadmin, hpre, hsize, Bool.not_true, Bool.not_false,
      if_false, if_true, Bool.false_eq_true]
    exact ⟨rfl, rfl⟩
  · intro hbad
    rw [uploadOrganizationLogoHandler]
    rcases hbad with hpre | hsize
    · exact ⟨⟨"Logo must be a PNG image in base64 format",
        "validation_error"⟩, by simp [hadmin, hpre], rfl⟩
    · by_cases hpre : strStartsWith logo pngLogoPrefix = true
      · exact ⟨⟨"Logo must be less than 2MB", "validation_error"⟩,
          by simp [hadmin, hpre, hsize], rfl⟩
      · have hpre' : strStartsWith logo pngLogoPrefix = false := by
          revert hpre
          cases strStartsWith logo pngLogoPrefix <;> simp
        exact ⟨⟨"Logo must be a PNG image in base64 format",
          "validation_error"⟩, by simp [hadmin, hpre'], rfl⟩

/-- Witness for C8: a small well-formed PNG data-URI logo is stored; a
logo without the prefix is rejected with a 400 `validation_error` and
the organization is unchanged. -/
theorem uploadOrganizationLogo_spec_witness :
    uploadOrganizationLogoHandler (some ⟨true⟩) "data:image/png;base64,AA"
        ⟨"o1", "Org", none, none, none, none, none⟩ =
      (.ok true (some "data:image/png;base64,AA"),
        ⟨"o1", "Org", none, none, none, some "data:image/png;base64,AA",
          some "custom"⟩) ∧
    ∃ body, uploadOrganizationLogoHandler (some ⟨true⟩) "nope"
        ⟨"o1", "Org", none, none, none, none, none⟩ =
      (.err 400 body, ⟨"o1", "Org", none, none, none, none, none⟩) ∧
      body.type = "validation_error" := by
  constructor
  · have h := (uploadOrganizationLogo_spec ⟨true⟩ "data:image/png;base64,AA"
      ⟨"o1", "Org", none, none, none, none, none⟩ rfl).1 (by decide) (by decide)
    exact h.1
  · exact (uploadOrganizationLogo_spec ⟨true⟩ "nope"
      ⟨"o1", "Org", none, none, none, none, none⟩ rfl).2 (Or.inl (by decide))

/-- C9: a PATCH body whose `logo` is a non-empty string lacking the PNG
data-URI prefix, or exceeding `2.66 * 1024 * 1024` characters, makes
`OrganizationModel.patch` throw before updating the row, and the route
converts this into an HTTP 500 of type `api_error` (not a 400
`validation_error`), leaving the table unchanged; a `logo` of `null` or
an absent `logo` bypasses the validation entirely and is written as-is by
the `set(data)` update. -/
theorem organizationPatch_logo_spec (id : String)
    (body : UpdateOrganizationBody) (db : List Organization) (l : String) :
    (body.logo = .value (some l) → l ≠ "" →
      (strStartsWith l pngLogoPrefix = false ∨
        exceedsLogoMaxSize l.length = true) →
      (∃ msg, organizationPatch id body db = .error msg) ∧
      ∃ msg, patchOrganizationHandler id body db
        = (.err 500 ⟨msg, "api_error"⟩, db)) ∧
    ((body.logo = .value none ∨ body.logo = .absent) →
      organizationPatch id body db =
        .ok ((db.find? (fun o => o.id == id)).map (applyOrgPatch body),
          db.map (fun o => if o.id == id then applyOrgPatch body o else o))) := by
  constructor
  · intro hlogo hne hbad
    have herr : ∃ msg, organizationPatch id body db = .error msg := by
      rw [organizationPatch, hlogo]
      rcases hbad with hpre | hsize
      · exact ⟨"Logo must be a PNG image in base64 format",
          by simp [hne, hpre]⟩
      · by_cases hpre : strStartsWith l pngLogoPrefix = true
        · exact ⟨"Logo must be less than 2MB", by simp [hne, hpre, hsize]⟩
        · have hpre' : strStartsWith l pngLogoPrefix = false := by
            revert hpre
            cases strStartsWith l pngLogoPrefix <;> simp
          exact ⟨"Logo must be a PNG image in base64 format",
            by simp [hne, hpre']⟩
    obtain ⟨msg, hmsg⟩ := herr
    refine ⟨⟨msg, hmsg⟩, ⟨msg, ?_⟩⟩
    rw [patchOrganizationHandler, hmsg]
  · intro hlogo
    rcases hlogo with hval | habs
    · rw [organizationPatch, hval]
    · rw [organizationPatch, habs]

/-- Witness for C9: a body whose `logo` is the non-empty string `"x"`
(no PNG prefix) makes `patch` throw and the route reply 500 `api_error`
with the table untouched; a body whose `logo` is `null` skips validation
and nulls out the stored logo. -/
theorem organizationPatch_logo_spec_witness :
    (∃ msg, patchOrganizationHandler "o1"
        ⟨.absent, .absent, .absent, .value (some "x")⟩
        [⟨"o1", "Org", none, none, none, some "old", some "custom"⟩]
      = (.err 500 ⟨msg, "api_error"⟩,
        [⟨"o1", "Org", none, none, none, some "old", some "custom"⟩])) ∧
    organizationPatch "o1" ⟨.absent, .absent, .absent, .value none⟩
        [⟨"o1", "Org", none, none, none, some "old", some "custom"⟩]
      = .ok (some ⟨"o1", "Org", none, none, none, none, some "custom"⟩,
        [⟨"o1", "Org", none, none, none, none, some "custom"⟩]) := by
  constructor
  · exact ((organizationPatch_logo_spec "o1"
      ⟨.absent, .absent, .absent, .value (some "x")⟩
      [⟨"o1", "Org", none, none, none, some "old", some "custom"⟩] "x").1
      rfl (by decide) (Or.inl (by decide))).2
  · have h := (organizationPatch_logo_spec "o1"
      ⟨.absent, .absent, .absent, .value none⟩
      [⟨"o1", "Org", none, none, none, some "old", some "custom"⟩] "").2
      (Or.inl rfl)
    rw [h]
    rfl

/-- C10: in the AgentCard route the prompt and agent lookups precede the
bearer-token check: a request naming a promptId with no matching prompt
gets a 404 "Prompt not found" whatever the Authorization header (the
token component of the environment is arbitrary), and a 401 is only ever
produced when both the prompt and its owning agent exist. -/
theorem a2aAgentCardHandler_spec (env : A2AEnv) (baseUrl endpoint : String) :
    (env.prompt = none →
      a2aAgentCardHandler env baseUrl endpoint
        = .error (404, "Prompt not found")) ∧
    (∀ st msg, a2aAgentCardHandler env baseUrl endpoint = .error (st, msg) →
      st = 401 → env.prompt.isSome = true ∧ env.agent.isSome = true) := by
  constructor
  · intro hp
    rw [a2aAgentCardHandler, hp]
  · intro st msg herr h401
    subst h401
    rcases hp : env.prompt with _ | prompt
    · rw [a2aAgentCardHandler, hp] at herr
      injection herr with herr
      exact absurd (congrArg Prod.fst herr) (by norm_num)
    · rcases ha : env.agent with _ | agent
      · rw [a2aAgentCardHandler, hp] at herr
        simp only [ha] at herr
        injection herr with herr
        exact absurd (congrArg Prod.fst herr) (by norm_num)
      · simp [hp, ha]

/-- Witness for C10: with no prompt and no Authorization header at all,
the reply is the 404, not a 401; and a 401 reply (invalid token with
prompt and agent present) indeed has both lookups succeed. -/
theorem a2aAgentCardHandler_spec_witness :
    a2aAgentCardHandler
        ⟨none, none, none, none, false, none, .error ""⟩ "http://h" "/a2a"
      = .error (404, "Prompt not found") ∧
    ((⟨some ⟨"p1", "a1", "P", none, none, 1⟩, some ⟨"a1", "A"⟩, some "tok",
        none, false, none, .error ""⟩ : A2AEnv).prompt.isSome = true ∧
      (⟨some ⟨"p1", "a1", "P", none, none, 1⟩, some ⟨"a1", "A"⟩, some "tok",
        none, false, none, .error ""⟩ : A2AEnv).agent.isSome = true) := by
  constructor
  · exact (a2aAgentCardHandler_spec
      ⟨none, none, none, none, false, none, .error ""⟩ "http://h" "/a2a").1 rfl
  · exact (a2aAgentCardHandler_spec
      ⟨some ⟨"p1", "a1", "P", none, none, 1⟩, some ⟨"a1", "A"⟩, some "tok",
        none, false, none, .error ""⟩ "http://h" "/a2a").2
      401 "Invalid or unauthorized token" rfl rfl

/-- C7: every schema-valid request to the A2A JSON-RPC execution endpoint
is answered with HTTP status 200; a missing prompt (or agent) yields a
JSON-RPC error with code -32602, as does an empty message text once
authentication has passed; a missing bearer token or a failed token
validation yields code -32600; an execution failure yields code -32603;
and a success reply carries a result message with role "agent" and a
single text part holding the final text. -/
theorem a2aExecuteHandler_spec (env : A2AEnv) (reqId msgId : String) :
    (a2aExecuteHandler env reqId msgId).status = 200 ∧
    (env.prompt = none →
      a2aExecuteHandler env reqId msgId
        = a2aError reqId (-32602) "Prompt not found") ∧
    (env.prompt.isSome = true → env.agent.isSome = true → env.token = none →
      a2aExecuteHandler env reqId msgId = a2aError reqId (-32600)
        "Authorization header required. Use: Bearer <archestra_token>") ∧
    (env.prompt.isSome = true → env.agent.isSome = true →
      env.token.isSome = true → env.tokenAuth = none →
      a2aExecuteHandler env reqId msgId
        = a2aError reqId (-32600) "Invalid or unauthorized token") ∧
    (∀ ta, env.prompt.isSome = true → env.agent.isSome = true →
      env.token.isSome = true → env.tokenAuth = some ta →
      (ta.userId.isSome && !env.userExists) = false →
      (extractUserMessage env.params = "" →
        a2aExecuteHandler env reqId msgId
          = a2aError reqId (-32602) "No message content provided") ∧
      (extractUserMessage env.params ≠ "" →
        (∀ msg, env.execResult = .error msg →
          a2aExecuteHandler env reqId msgId = a2aError reqId (-32603) msg) ∧
        (∀ t, env.execResult = .ok t →
          a2aExecuteHandler env reqId msgId
            = ⟨200, ⟨reqId, some ⟨msgId, "agent", [⟨t⟩]⟩, none⟩⟩))) := by
  obtain ⟨prompt, agent, token, tokenAuth, userExists, params, execResult⟩ :=
    env
  refine ⟨?_, ?_, ?_, ?_, ?_⟩
  · rw [a2aExecuteHandler]
    rcases prompt with _ | p
    · rfl
    · rcases agent with _ | a
      · rfl
      · rcases token with _ | t
        · rfl
        · rcases tokenAuth with _ | ta
          · rfl
          · simp only []
            by_cases h1 : (ta.userId.isSome && !userExists) = true
            · simp [h1, a2aError]
            · rw [if_neg h1]
              by_cases h2 : extractUserMessage params = ""
              · simp [h2, a2aError]
              · rw [if_neg h2]
                rcases execResult with msg | t
                · rfl
                · rfl
  · intro hp
    simp only at hp
    subst hp
    rfl
  · intro hp ha ht
    simp only at hp ha ht
    subst ht
    rcases prompt with _ | p
    · exact absurd hp (by simp)
    · rcases agent with _ | a
      · exact absurd ha (by simp)
      · rfl
  · intro hp ha ht hta
    simp only at hp ha ht hta
    subst hta
    rcases prompt with _ | p
    · exact absurd hp (by simp)
    · rcases agent with _ | a
      · exact absurd ha (by simp)
      · rcases token with _ | t
        · exact absurd ht (by simp)
        · rfl
  · intro ta hp ha ht hta huser
    simp only at hp ha ht hta huser
    subst hta
    rcases prompt with _ | p
    · exact absurd hp (by simp)
    rcases agent with _ | a
    · exact absurd ha (by simp)
    rcases token with _ | t
    · exact absurd ht (by simp)
    constructor
    · intro hmsg
      simp only at hmsg
      rw [a2aExecuteHandler]
      simp only [huser, Bool.false_eq_true, if_false, if_pos hmsg]
    · intro hmsg
      simp only at hmsg
      constructor
      · intro msg hexec
        simp only at hexec
        subst hexec
        rw [a2aExecuteHandler]
        simp only [huser, Bool.false_eq_true, if_false, if_neg hmsg]
      · intro t hexec
        simp only at hexec
        subst hexec
        rw [a2aExecuteHandler]
        simp only [huser, Bool.false_eq_true, if_false, if_neg hmsg]

/-- Witness for C7: a request for a missing prompt is answered 200 with
JSON-RPC error -32602, and a fully authenticated request with message
text "hi" and successful execution gets a result message with role
"agent" and one text part. -/
theorem a2aExecuteHandler_spec_witness :
    a2aExecuteHandler ⟨none, none, none, none, false, none, .error ""⟩
        "1" "m" = a2aError "1" (-32602) "Prompt not found" ∧
    a2aExecuteHandler ⟨some ⟨"p1", "a1", "P", none, none, 1⟩,
        some ⟨"a1", "A"⟩, some "tok", some ⟨"org", none⟩, false,
        some ⟨some (some [⟨"hi"⟩])⟩, .ok "done"⟩ "1" "m"
      = ⟨200, ⟨"1", some ⟨"m", "agent", [⟨"done"⟩]⟩, none⟩⟩ := by
  constructor
  · exact (a2aExecuteHandler_spec
      ⟨none, none, none, none, false, none, .error ""⟩ "1" "m").2.1 rfl
  · exact (((a2aExecuteHandler_spec ⟨some ⟨"p1", "a1", "P", none, none, 1⟩,
      some ⟨"a1", "A"⟩, some "tok", some ⟨"org", none⟩, false,
      some ⟨some (some [⟨"hi"⟩])⟩, .ok "done"⟩ "1" "m").2.2.2.2
      ⟨"org", none⟩ rfl rfl rfl rfl (by decide)).2 (by decide)).2 "done" rfl

/-- C3: if every invocation of `fn` rejects with a transient error,
`withDbRetry(fn, {maxRetries: N})` invokes `fn` exactly N+1 times and
rethrows the last error; if the first invocation rejects with a
non-transient error, `fn` is invoked exactly once and the error is
rethrown; and if attempt `k` succeeds after `k` transient failures, its
result is returned after exactly k+1 invocations, with no further
attempt. -/
theorem withDbRetry_spec {α : Type} (fn : Nat → CallOutcome α)
    (es : Nat → JsVal) (N k : Nat) (v : α) :
    ((∀ n, fn n = .err (es n)) →
      (∀ n, isTransientDbError (es n) 0 = true) →
      withDbRetry fn N = (.error (es N), N + 1)) ∧
    (fn 0 = .err (es 0) → isTransientDbError (es 0) 0 = false →
      withDbRetry fn N = (.error (es 0), 1)) ∧
    (k ≤ N → (∀ n < k, fn n = .err (es n)) →
      (∀ n < k, isTransientDbError (es n) 0 = true) → fn k = .ok v →
      withDbRetry fn N = (.ok v, k + 1)) := by
  refine ⟨?_, ?_, ?_⟩
  · intro hfn htr
    rw [withDbRetry]
    exact withDbRetryGo_allTransient fn es N hfn htr N 0 (Nat.zero_le _)
      (by omega)
  · intro hfn htr
    rw [withDbRetry, withDbRetryGo]
    simp only [hfn]
    rw [dif_neg (fun hc => absurd hc.1 (by simp [htr]))]
  · intro hk hfn htr hok
    rw [withDbRetry]
    exact withDbRetryGo_succeedAt fn es v N k hfn htr hk hok k 0
      (Nat.zero_le _) (by omega)

/-- Witness for C3: a function always failing with ECONNREFUSED under
`maxRetries: 2` is called 3 times and the last error is rethrown; a
function failing with a duplicate-key error is called once; a function
failing transiently once then succeeding returns after 2 calls. -/
theorem withDbRetry_spec_witness :
    withDbRetry (fun _ => (.err (.error "connect ECONNREFUSED" none) :
        CallOutcome Nat)) 2
      = (.error (.error "connect ECONNREFUSED" none), 3) ∧
    withDbRetry (fun _ => (.err (.error "duplicate key" (some "23505")) :
        CallOutcome Nat)) 3
      = (.error (.error "duplicate key" (some "23505")), 1) ∧
    withDbRetry (fun n =>
        if n = 0 then .err (.error "read ECONNRESET" none)
        else .ok 42) 3
      = (.ok (42 : Nat), 2) := by
  refine ⟨?_, ?_, ?_⟩
  · exact (withDbRetry_spec (fun _ => .err (.error "connect ECONNREFUSED" none))
      (fun _ => .error "connect ECONNREFUSED" none) 2 0 0).1
      (fun _ => rfl) (fun _ => by decide)
  · exact (withDbRetry_spec
      (fun _ => .err (.error "duplicate key" (some "23505")))
      (fun _ => .error "duplicate key" (some "23505")) 3 0 0).2.1
      rfl (by decide)
  · exact (withDbRetry_spec
      (fun n => if n = 0 then .err (.error "read ECONNRESET" none)
        else .ok 42)
      (fun _ => .error "read ECONNRESET" none) 3 1 42).2.2
      (by omega) (by decide) (fun _ _ => by decide) rfl

/-- C2: decrypting an encryption of any plaintext (any byte list, i.e.
the JSON serialization of any JSON-serializable object, the empty object
and nested structures included) with the same ambient secret recovers the
plaintext exactly; and two calls to `encryptSecretValue` drawing distinct
(96-bit) fresh IVs produce wrapper objects whose `__encrypted` strings
differ, whatever the plaintexts. -/
theorem encryptSecretValue_spec (s : String) (p p₁ p₂ : List Nat)
    (iv iv₁ iv₂ : Nat) (hp : ∀ b ∈ p, b < 256)
    (hiv : iv₁ % 64 ^ 16 ≠ iv₂ % 64 ^ 16) :
    (∀ e, encryptSecretValue (some s) p iv = .ok e →
      decryptSecretValue (some s) e = .ok p) ∧
    (∀ e₁ e₂, encryptSecretValue (some s) p₁ iv₁ = .ok e₁ →
      encryptSecretValue (some s) p₂ iv₂ = .ok e₂ →
      e₁.__encrypted ≠ e₂.__encrypted) := by
  constructor
  · intro e he
    rw [encryptSecretValue] at he
    injection he with he
    subst he
    rw [decryptSecretValue]
    exact decrypt_encrypt_roundtrip p (deriveKeyFromSecret s) iv hp
  · intro e₁ e₂ h1 h2
    rw [encryptSecretValue] at h1
    rw [encryptSecretValue] at h2
    injection h1 with h1
    injection h2 with h2
    subst h1
    subst h2
    exact encrypt_iv_ne p₁ p₂ (deriveKeyFromSecret s) iv₁ iv₂ hiv

/-- Witness for C2: the bytes `[0, 255, 7]` round-trip through the
ambient-key encrypt/decrypt pair, and encrypting twice with IVs 0 and 1
yields different `__encrypted` strings. -/
theorem encryptSecretValue_spec_witness :
    decryptSecretValue (some "secret-k")
        (encryptSecretValueWithKey [0, 255, 7]
          (deriveKeyFromSecret "secret-k") 3) = .ok [0, 255, 7] ∧
    (encryptSecretValueWithKey [1, 2] (deriveKeyFromSecret "secret-k") 0).__encrypted
      ≠ (encryptSecretValueWithKey [1, 2]
          (deriveKeyFromSecret "secret-k") 1).__encrypted := by
  constructor
  · exact (encryptSecretValue_spec "secret-k" [0, 255, 7] [] [] 3 0 1
      (by decide) (by decide)).1 _ rfl
  · exact (encryptSecretValue_spec "secret-k" [] [1, 2] [1, 2] 3 0 1
      (by decide) (by decide)).2 _ _ rfl rfl

/-- C1: calling `rotateSecretEncryptionKey` with identical old and new
secrets throws the "identical" error before reading or writing any row
(for every table state and mode); a successful dry run leaves every row
unchanged and returns the counts (total rows, wrapper-shaped rows,
plaintext rows); and a successful real run — whose writes are one
transaction, an error outcome writing nothing — produces a table of the
same length in which every row is envelope-encrypted and decryptable
under the new key. -/
theorem rotateSecretEncryptionKey_spec (oldS newS : String) (d : Bool)
    (ivs : Nat → Nat) (rows : List SecretRow) :
    (oldS = newS → rotateSecretEncryptionKey oldS newS d ivs rows
      = .error "Old and new secrets are identical — nothing to rotate.") ∧
    (∀ rows' counts,
      rotateSecretEncryptionKey oldS newS true ivs rows
        = .ok (rows', counts) →
      rows' = rows ∧ counts.total = rows.length ∧
      counts.reEncrypted = rows.countP (fun r => isEncryptedSecret r.secret) ∧
      counts.newlyEncrypted
        = rows.countP (fun r => !isEncryptedSecret r.secret)) ∧
    (∀ rows' counts,
      rotateSecretEncryptionKey oldS newS false ivs rows
        = .ok (rows', counts) →
      rows'.length = rows.length ∧
      ∀ r' ∈ rows', isEncryptedSecret r'.secret = true ∧
        ∃ p, decryptSecretValueWithKey (storedEnvelope r'.secret)
          (deriveKeyFromSecret newS) = .ok p) := by
  refine ⟨?_, ?_, ?_⟩
  · intro h
    rw [rotateSecretEncryptionKey, if_pos h]
  · intro rows' counts h
    by_cases he : oldS = newS
    · rw [rotateSecretEncryptionKey, if_pos he] at h
      exact absurd h (by simp)
    · rw [rotateSecretEncryptionKey, if_neg he] at h
      rcases hdc : dryRunCounts (deriveKeyFromSecret oldS) rows with msg | ab
      · simp [hdc] at h
      · rcases ab with ⟨a, b⟩
        simp only [hdc, if_pos rfl] at h
        injection h with h
        injection h with h1 h2
        obtain ⟨ha, hb⟩ := dryRunCounts_ok _ rows a b hdc
        subst h2
        refine ⟨h1.symm, rfl, ha, hb⟩
  · intro rows' counts h
    by_cases he : oldS = newS
    · rw [rotateSecretEncryptionKey, if_pos he] at h
      exact absurd h (by simp)
    · rw [rotateSecretEncryptionKey, if_neg he] at h
      rcases hre : reencryptRows (deriveKeyFromSecret oldS)
          (deriveKeyFromSecret newS) ivs 0 rows with msg | res
      · simp [hre] at h
      · rcases res with ⟨rs', a, b⟩
        simp only [hre] at h
        injection h with h
        injection h with h1 h2
        obtain ⟨hlen, hall⟩ := reencryptRows_ok _ _ ivs 0 rows rs' a b hre
        subst h1
        exact ⟨hlen, hall⟩

/-- Witness for C1: identical secrets error out on a concrete table; a
concrete dry run reports one wrapper-shaped and one plaintext row; a
concrete real run returns a table of the same length. -/
theorem rotateSecretEncryptionKey_spec_witness :
    rotateSecretEncryptionKey "old-test-secret" "old-test-secret" true
        (fun _ => 5) [⟨2, .plain [104]⟩]
      = .error "Old and new secrets are identical — nothing to rotate." ∧
    (⟨2, 1, 1⟩ : RotationCounts).reEncrypted
      = List.countP (fun r => isEncryptedSecret r.secret)
        [⟨1, .enc (encryptSecretValueWithKey [104, 105]
            (deriveKeyFromSecret "old-test-secret") 7)⟩,
          (⟨2, .plain [104]⟩ : SecretRow)] ∧
    [(⟨2, .enc (encryptSecretValueWithKey [104]
        (deriveKeyFromSecret "new-test-secret") 0)⟩ : SecretRow)].length
      = [(⟨2, .plain [104]⟩ : SecretRow)].length := by
  refine ⟨?_, ?_, ?_⟩
  · exact (rotateSecretEncryptionKey_spec "old-test-secret" "old-test-secret"
      true (fun _ => 5) [⟨2, .plain [104]⟩]).1 rfl
  · exact ((rotateSecretEncryptionKey_spec "old-test-secret" "new-test-secret"
      true (fun _ => 0)
      [⟨1, .enc (encryptSecretValueWithKey [104, 105]
          (deriveKeyFromSecret "old-test-secret") 7)⟩,
        ⟨2, .plain [104]⟩]).2.1
      [⟨1, .enc (encryptSecretValueWithKey [104, 105]
          (deriveKeyFromSecret "old-test-secret") 7)⟩,
        ⟨2, .plain [104]⟩] ⟨2, 1, 1⟩ rfl).2.2.1
  · exact ((rotateSecretEncryptionKey_spec "old-test-secret" "new-test-secret"
      false (fun _ => 0) [⟨2, .plain [104]⟩]).2.2
      [⟨2, .enc (encryptSecretValueWithKey [104]
          (deriveKeyFromSecret "new-test-secret") 0)⟩] ⟨1, 0, 1⟩ rfl).1
